import Mathlib

/-!
# Verification of `examples/python-packages/page-generator.py`

A shallow embedding of the page-generator script.  A text file is modelled as
the list of its lines exactly as Python's line iteration yields them (each line
keeps its terminator, so equality of line lists is byte-for-byte equality of
file contents).

The script has three functions:

* `get_data()` — a generator yielding every line of the data file in order;
* `sample_data(k)` — a generator that draws `k` distinct indices via
  `random.sample(range(num_packages), k)` and yields the data lines whose
  0-based index is in the drawn set, in file order;
* `generate_page(filename, k=None)` — copies the template file to the output,
  replacing every line containing the substring `'DATA'` by the lines produced
  by `get_data()` (when `k is None`) or `sample_data(k)` (otherwise).

Randomness is modelled by passing the set drawn by `random.sample` as an
explicit parameter (one set per marker occurrence); `random.sample`'s own
argument validation (`ValueError` unless `0 ≤ k ≤ n`) is embedded as an
explicit check producing `PGErr.invalidArgument`.
-/

/-- The configured record count, `num_packages = 299594` in the script. -/
def num_packages : ℕ := 299594

/-- Error kinds surfaced by the embedded script. -/
inductive PGErr where
  | invalidArgument
  deriving DecidableEq, Repr

/-- `startsWithPat p s` is true iff the character list `s` starts with `p`. -/
def startsWithPat : List Char → List Char → Bool
  | [], _ => true
  | _ :: _, [] => false
  | p :: ps, c :: cs => p == c && startsWithPat ps cs

/-- `containsPat p s` is true iff `p` occurs contiguously inside `s`:
the embedding of Python's substring test `p in s`. -/
def containsPat (pat : List Char) : List Char → Bool
  | [] => startsWithPat pat []
  | c :: cs => startsWithPat pat (c :: cs) || containsPat pat cs

/-- The marker test of the script: `'DATA' in line`. -/
def markerIn (line : String) : Bool :=
  containsPat "DATA".toList line.toList

/-- `get_data()`: yields every line of the data file, in file order. -/
def get_data (dataFile : List String) : List String := dataFile

/-- The scanning loop of `sample_data`:
`for index, line in enumerate(reader): if index in indices: yield line`,
started at index `i`. -/
def emitFrom (S : Finset ℕ) : ℕ → List String → List String
  | _, [] => []
  | i, line :: rest =>
    if i ∈ S then line :: emitFrom S (i + 1) rest else emitFrom S (i + 1) rest

/-- Running `sample_data(k)` to exhaustion.  `draw` is the set produced by
`random.sample(range(num_packages), k)`; the `if` is `random.sample`'s own
validation (CPython raises `ValueError` unless `0 ≤ k ≤ n`). -/
def sampleDataRun (k : ℤ) (draw : Finset ℕ) (dataFile : List String) :
    Except PGErr (List String) :=
  if 0 ≤ k ∧ k ≤ (num_packages : ℤ) then
    .ok (emitFrom draw 0 dataFile)
  else
    .error .invalidArgument

/-- The postcondition of `random.sample(range(n), k)` on valid arguments:
the drawn set has `k` elements, all below `n`. -/
def randomSampleSpec (n : ℕ) (k : ℤ) (S : Finset ℕ) : Prop :=
  S.card = k.toNat ∧ ∀ i ∈ S, i < n

/-- The template loop of `generate_page`, carrying the index `occ` of the next
marker occurrence (each occurrence calls the sampler afresh, so it gets the
draw `draws occ`). -/
def generatePageFrom (dataFile : List String) (k : Option ℤ)
    (draws : ℕ → Finset ℕ) : List String → ℕ → Except PGErr (List String)
  | [], _ => .ok []
  | line :: rest, occ =>
    if markerIn line then
      match k with
      | none =>
        match generatePageFrom dataFile none draws rest (occ + 1) with
        | .ok tail => .ok (get_data dataFile ++ tail)
        | .error e => .error e
      | some kv =>
        match sampleDataRun kv (draws occ) dataFile with
        | .error e => .error e
        | .ok block =>
          match generatePageFrom dataFile (some kv) draws rest (occ + 1) with
          | .ok tail => .ok (block ++ tail)
          | .error e => .error e
    else
      match generatePageFrom dataFile k draws rest (occ + 1) with
      | .ok tail => .ok (line :: tail)
      | .error e => .error e

/-- `generate_page(filename, k)`: the produced output file, as its list of
lines, or the propagated error. -/
def generate_page (template dataFile : List String) (k : Option ℤ)
    (draws : ℕ → Finset ℕ) : Except PGErr (List String) :=
  generatePageFrom dataFile k draws template 0

/-! ## Resource and failure-injection model

`generate_page` holds the template and output files in `with` blocks, while
the data file is opened by a plain `open` inside the generators and closed by
a `reader.close()` placed after the generator's loop — so that close runs only
if the generator is driven to exhaustion.  To reason about exit paths we track
file open/close events and inject an I/O failure after a chosen number of
successful `write` calls. -/

/-- File open/close events observable during one `generate_page` call. -/
inductive Ev where
  | openTemplate
  | openOutput
  | openData
  | closeTemplate
  | closeOutput
  | closeData
  deriving DecidableEq, Repr

/-- How a `generate_page` call can stop in the failure-injection model:
`writeFailure` is an injected I/O error raised by a `write` call,
`invalidArgument` is `random.sample`'s `ValueError`. -/
inductive RunErr where
  | writeFailure
  | invalidArgument
  deriving DecidableEq, Repr

/-- The mutable context of a run: the lines written to the output so far, the
number of `write` calls that will still succeed (`none` = no injected
failure), and the file events so far. -/
structure WSt where
  written : List String
  budget : Option ℕ
  evs : List Ev
  deriving DecidableEq, Repr

/-- `writer.write(line)`: appends to the output file, consuming one unit of
budget; reports failure when the budget is exhausted. -/
def wWrite (st : WSt) (line : String) : WSt × Bool :=
  match st.budget with
  | none => ({ st with written := st.written ++ [line] }, true)
  | some 0 => (st, false)
  | some (b + 1) =>
    ({ st with written := st.written ++ [line], budget := some b }, true)

/-- `writer.writelines` over the lines a generator will yield: writes them one
at a time, stopping at the first failed write. -/
def wWriteLines (st : WSt) : List String → WSt × Bool
  | [] => (st, true)
  | l :: ls =>
    match wWrite st l with
    | (st1, true) => wWriteLines st1 ls
    | (st1, false) => (st1, false)

/-- `writer.writelines(get_data())`: the generator opens the data file at its
first advance, and the `reader.close()` after its loop runs only when the
iteration is driven to exhaustion — an interrupted write leaves the data file
without a close event in this call. -/
def wWriteData (st : WSt) (dataFile : List String) : WSt × Option RunErr :=
  match wWriteLines { st with evs := st.evs ++ [Ev.openData] }
      (get_data dataFile) with
  | (st1, true) => ({ st1 with evs := st1.evs ++ [Ev.closeData] }, none)
  | (st1, false) => (st1, some .writeFailure)

/-- `writer.writelines(sample_data(k))`: the first advance runs
`random.sample` (which validates `k` before any file is opened), then opens
the data file; as in `wWriteData` the close happens only on exhaustion. -/
def wWriteSample (st : WSt) (k : ℤ) (draw : Finset ℕ)
    (dataFile : List String) : WSt × Option RunErr :=
  if 0 ≤ k ∧ k ≤ (num_packages : ℤ) then
    match wWriteLines { st with evs := st.evs ++ [Ev.openData] }
        (emitFrom draw 0 dataFile) with
    | (st1, true) => ({ st1 with evs := st1.evs ++ [Ev.closeData] }, none)
    | (st1, false) => (st1, some .writeFailure)
  else (st, some .invalidArgument)

/-- The body of a marker line: `writelines(get_data())` when `k is None`,
`writelines(sample_data(k))` otherwise. -/
def markerWrite (st : WSt) (dataFile : List String) (k : Option ℤ)
    (draw : Finset ℕ) : WSt × Option RunErr :=
  match k with
  | none => wWriteData st dataFile
  | some kv => wWriteSample st kv draw dataFile

/-- The template loop of `generate_page` in the failure-injection model. -/
def renderLoop (dataFile : List String) (k : Option ℤ)
    (draws : ℕ → Finset ℕ) : List String → ℕ → WSt → WSt × Option RunErr
  | [], _, st => (st, none)
  | line :: rest, occ, st =>
    if markerIn line then
      match markerWrite st dataFile k (draws occ) with
      | (st1, some e) => (st1, some e)
      | (st1, none) => renderLoop dataFile k draws rest (occ + 1) st1
    else
      match wWrite st line with
      | (st1, true) => renderLoop dataFile k draws rest (occ + 1) st1
      | (st1, false) => (st1, some .writeFailure)

/-- One full `generate_page` call in the failure-injection model: the two
`with` blocks open the template and output files first and close them on every
exit path (that is the semantics of `with`); `budget` is the number of `write`
calls that succeed before an injected I/O error, `none` for a run with no
failure. -/
def render (template dataFile : List String) (k : Option ℤ)
    (draws : ℕ → Finset ℕ) (budget : Option ℕ) : WSt × Option RunErr :=
  match renderLoop dataFile k draws template 0
      { written := [], budget := budget,
        evs := [Ev.openTemplate, Ev.openOutput] } with
  | (st, e) =>
    ({ st with evs := st.evs ++ [Ev.closeOutput, Ev.closeTemplate] }, e)

/-- A generator object as returned by a call of `sample_data(k)`: per Python
generator semantics (PEP 255) the call itself runs none of the body — neither
`random.sample`'s validation nor the `open` of the data file — it only
captures the argument; the body starts at the first advance. -/
structure SampleGen where
  arg : ℤ
  deriving DecidableEq, Repr

/-- Calling `sample_data(k)`: returns a generator object, performing no file
events (no validation of `k` happens, and nothing can raise here). -/
def sample_data_call (k : ℤ) : SampleGen × List Ev := (⟨k⟩, [])

/-- Driving the generator from its first advance: the body runs
`random.sample`'s validation first — before any file is opened — then opens
the data file, scans it, and closes it on exhaustion.  Returns the emitted
sequence (or the error of the first advance) with the file events of a
complete consumption. -/
def SampleGen.consume (g : SampleGen) (draw : Finset ℕ)
    (dataFile : List String) : Except PGErr (List String) × List Ev :=
  if 0 ≤ g.arg ∧ g.arg ≤ (num_packages : ℤ) then
    (.ok (emitFrom draw 0 dataFile), [Ev.openData, Ev.closeData])
  else
    (.error .invalidArgument, [])

/-! ## Characterisation of the marker test -/

lemma startsWithPat_iff : ∀ (p s : List Char),
    startsWithPat p s = true ↔ ∃ r, s = p ++ r
  | [], s => by simp [startsWithPat]
  | p :: ps, [] => by simp [startsWithPat]
  | p :: ps, c :: cs => by
    simp only [startsWithPat, Bool.and_eq_true, beq_iff_eq,
      startsWithPat_iff ps cs]
    constructor
    · rintro ⟨rfl, r, rfl⟩
      exact ⟨r, rfl⟩
    · rintro ⟨r, h⟩
      rw [List.cons_append] at h
      injection h with h1 h2
      exact ⟨h1.symm, r, h2⟩

lemma containsPat_iff (pat : List Char) : ∀ (s : List Char),
    containsPat pat s = true ↔ ∃ l r, s = l ++ pat ++ r
  | [] => by
    simp only [containsPat, startsWithPat_iff]
    constructor
    · rintro ⟨r, h⟩
      exact ⟨[], r, by simpa using h⟩
    · rintro ⟨l, r, h⟩
      rcases List.append_eq_nil.mp h.symm with ⟨h1, rfl⟩
      rcases List.append_eq_nil.mp h1 with ⟨rfl, rfl⟩
      exact ⟨[], rfl⟩
  | c :: cs => by
    simp only [containsPat, Bool.or_eq_true, startsWithPat_iff,
      containsPat_iff pat cs]
    constructor
    · rintro (⟨r, h⟩ | ⟨l, r, h⟩)
      · exact ⟨[], r, by simpa using h⟩
      · exact ⟨c :: l, r, by simp [h]⟩
    · rintro ⟨l, r, h⟩
      cases l with
      | nil => exact Or.inl ⟨r, by simpa using h⟩
      | cons x xs =>
        refine Or.inr ⟨xs, r, ?_⟩
        rw [List.cons_append, List.cons_append] at h
        injection h with h1 h2

lemma markerIn_iff (line : String) :
    markerIn line = true ↔ ∃ l r, line.toList = l ++ "DATA".toList ++ r :=
  containsPat_iff _ _

/-! ## Characterisation of the sampling scan -/

/-- The scan from index `i` emits, in order, the lines whose absolute index is
in `S`, i.e. the map of `file.getD (· - i)` over the `S`-members of
`[i, i + file.length)`. -/
lemma emitFrom_eq (S : Finset ℕ) : ∀ (file : List String) (i : ℕ),
    emitFrom S i file =
      ((List.range' i file.length).filter (fun j => decide (j ∈ S))).map
        (fun j => file.getD (j - i) "")
  | [], i => rfl
  | line :: rest, i => by
    rw [emitFrom, List.length_cons, List.range'_succ, List.filter_cons]
    have tail_eq :
        ((List.range' (i + 1) rest.length).filter (fun j => decide (j ∈ S))).map
            (fun j => (line :: rest).getD (j - i) "") =
          emitFrom S (i + 1) rest := by
      rw [emitFrom_eq S rest (i + 1)]
      apply List.map_congr_left
      intro j hj
      have hij : i + 1 ≤ j := (List.mem_range'_1.mp (List.mem_of_mem_filter hj)).1
      have hs : j - i = (j - (i + 1)) + 1 := by omega
      rw [hs]
      rfl
    by_cases hi : i ∈ S
    · rw [if_pos hi, if_pos (by simpa using hi), List.map_cons, Nat.sub_self,
        tail_eq]
      rfl
    · rw [if_neg hi, if_neg (by simpa using hi), tail_eq]

/-- Base form: scanning the whole file from index 0. -/
lemma emitFrom_zero (S : Finset ℕ) (file : List String) :
    emitFrom S 0 file =
      ((List.range file.length).filter (fun j => decide (j ∈ S))).map
        (fun j => file.getD j "") := by
  rw [emitFrom_eq, List.range_eq_range']
  simp

/-- The number of `S`-members of `List.range n` is the number of elements of
`S` below `n`. -/
lemma length_filter_range (S : Finset ℕ) : ∀ n : ℕ,
    ((List.range n).filter (fun j => decide (j ∈ S))).length =
      (S.filter (fun j => j < n)).card
  | 0 => by
    rw [Finset.filter_false_of_mem (by intro x _; omega)]
    simp
  | n + 1 => by
    rw [List.range_succ, List.filter_append, List.length_append,
      length_filter_range S n]
    have hsplit : (S.filter (fun j => j < n + 1)) =
        (S.filter (fun j => j < n)) ∪ (S.filter (fun j => j = n)) := by
      rw [← Finset.filter_or]
      apply Finset.filter_congr
      intro j _
      constructor
      · intro h; omega
      · intro h; omega
    have hdisj : Disjoint (S.filter (fun j => j < n))
        (S.filter (fun j => j = n)) := by
      rw [Finset.disjoint_filter]
      intro x _ hx
      omega
    rw [hsplit, Finset.card_union_of_disjoint hdisj, Finset.filter_eq']
    by_cases hn : n ∈ S <;> simp [hn]

/-- Indexing `file` along `List.range file.length` reproduces `file`. -/
lemma map_range_getD (file : List String) :
    (List.range file.length).map (fun j => file.getD j "") = file := by
  apply List.ext_getElem
  · simp
  · intro i h1 h2
    simp [List.getD_eq_getElem?_getD, List.getElem?_eq_getElem h2]

/-- The index list produced by filtering `List.range n` is strictly
increasing. -/
lemma sorted_filter_range (n : ℕ) (p : ℕ → Bool) :
    List.Pairwise (· < ·) ((List.range n).filter p) :=
  (List.pairwise_lt_range n).filter p

/-- On valid arguments, running `sample_data(k)` succeeds and emits the map of
`file.getD` over the drawn indices below the file length, in ascending order. -/
lemma sampleDataRun_ok (k : ℤ) (draw : Finset ℕ) (file : List String)
    (h0 : 0 ≤ k) (hn : k ≤ (num_packages : ℤ)) :
    sampleDataRun k draw file =
      .ok (((List.range file.length).filter (fun j => decide (j ∈ draw))).map
        (fun j => file.getD j "")) := by
  rw [sampleDataRun, if_pos ⟨h0, hn⟩, emitFrom_zero]

/-- With `k = None`, `generate_page` replaces every marker line by the whole
data file and keeps every other line, independently of the draws. -/
lemma generatePageFrom_none (dataFile : List String) (draws : ℕ → Finset ℕ) :
    ∀ (t : List String) (occ : ℕ),
      generatePageFrom dataFile none draws t occ =
        .ok (t.flatMap (fun line => if markerIn line then dataFile else [line]))
  | [], _ => rfl
  | line :: rest, occ => by
    rw [List.flatMap_cons]
    by_cases hm : markerIn line
    · simp only [generatePageFrom, hm, if_true,
        generatePageFrom_none dataFile draws rest (occ + 1), get_data]
    · simp only [generatePageFrom, hm, Bool.false_eq_true, if_false,
        generatePageFrom_none dataFile draws rest (occ + 1)]
      simp [List.singleton_append]

/-- A template with no marker line is copied verbatim, whatever `k` is: the
sampler is never invoked. -/
lemma generatePageFrom_no_marker (dataFile : List String) (k : Option ℤ)
    (draws : ℕ → Finset ℕ) :
    ∀ (t : List String) (occ : ℕ), (∀ line ∈ t, markerIn line = false) →
      generatePageFrom dataFile k draws t occ = .ok t
  | [], _, _ => rfl
  | line :: rest, occ, h => by
    have hline : markerIn line = false := h line (List.mem_cons_self line rest)
    have hrest := generatePageFrom_no_marker dataFile k draws rest (occ + 1)
      (fun l hl => h l (List.mem_cons_of_mem line hl))
    simp only [generatePageFrom, hline, Bool.false_eq_true, if_false, hrest]

/-! ## Claim theorems -/

/-- C1: for every template file and every data file, `render(output, None)`
produces an output equal to the template with each marker line replaced by the
full concatenation of the data file's lines in original file order, and every
non-marker template line copied unchanged. -/
theorem render_none_concatenates (template dataFile : List String)
    (draws : ℕ → Finset ℕ) :
    generate_page template dataFile none draws =
      .ok (template.flatMap
        (fun line => if markerIn line then dataFile else [line])) :=
  generatePageFrom_none dataFile draws template 0

/-- C4: for every template file with no marker line and every `k` (`None` or a
valid sample size), `render(output, k)` outputs the template byte-for-byte,
raising no error. -/
theorem render_no_marker_verbatim (template dataFile : List String)
    (k : Option ℤ) (draws : ℕ → Finset ℕ)
    (hmarker : ∀ line ∈ template, markerIn line = false)
    (_hk : k = none ∨ ∃ kv, k = some kv ∧ 0 ≤ kv ∧ kv ≤ (num_packages : ℤ)) :
    generate_page template dataFile k draws = .ok template :=
  generatePageFrom_no_marker dataFile k draws template 0 hmarker

theorem render_no_marker_verbatim_witness :
    generate_page ["X", "Y"] ["A"] (some 1) (fun _ => {0}) = .ok ["X", "Y"] :=
  render_no_marker_verbatim ["X", "Y"] ["A"] (some 1) (fun _ => {0})
    (by decide) (Or.inr ⟨1, rfl, by decide, by decide⟩)

/-- C5: `render(output, None)` is deterministic — its output does not depend
on the random draws at all (and it always succeeds), so two runs on the same
template and data files produce byte-identical outputs. -/
theorem render_none_idempotent (template dataFile : List String)
    (draws₁ draws₂ : ℕ → Finset ℕ) :
    generate_page template dataFile none draws₁ =
      generate_page template dataFile none draws₂ ∧
    ∃ out, generate_page template dataFile none draws₁ = .ok out :=
  ⟨(generatePageFrom_none dataFile draws₁ template 0).trans
      (generatePageFrom_none dataFile draws₂ template 0).symm,
   ⟨_, generatePageFrom_none dataFile draws₁ template 0⟩⟩

/-- C2: with a data file of exactly `num_packages` lines and any valid
`0 ≤ k ≤ num_packages`, `emit_sample(k)` emits exactly `k` lines, drawn at
distinct strictly increasing file indices; `k = 0` gives the empty sequence
and `k = num_packages` gives the whole file in original order. -/
theorem sample_emits_k_lines (k : ℤ) (draw : Finset ℕ) (file : List String)
    (h0 : 0 ≤ k) (hn : k ≤ (num_packages : ℤ))
    (hfile : file.length = num_packages)
    (hdraw : randomSampleSpec num_packages k draw) :
    ∃ out, sampleDataRun k draw file = .ok out ∧
      out.length = k.toNat ∧
      (∃ idxs : List ℕ, List.Pairwise (· < ·) idxs ∧
        (∀ j ∈ idxs, j < file.length ∧ j ∈ draw) ∧
        out = idxs.map (fun j => file.getD j "")) ∧
      (k = 0 → out = []) ∧
      (k = (num_packages : ℤ) → out = file) := by
  obtain ⟨hcard, hlt⟩ := hdraw
  refine ⟨_, sampleDataRun_ok k draw file h0 hn, ?_, ?_, ?_, ?_⟩
  · rw [List.length_map, length_filter_range,
      Finset.filter_true_of_mem (fun j hj => hfile ▸ hlt j hj), hcard]
  · refine ⟨_, sorted_filter_range _ _, ?_, rfl⟩
    intro j hj
    rcases List.mem_filter.mp hj with ⟨hj1, hj2⟩
    exact ⟨List.mem_range.mp hj1, by simpa using hj2⟩
  · intro hk0
    subst hk0
    have : draw = ∅ := Finset.card_eq_zero.mp (by simpa using hcard)
    subst this
    simp
  · intro hkn
    have hsub : draw ⊆ Finset.range num_packages := fun j hj =>
      Finset.mem_range.mpr (hlt j hj)
    have hcard' : draw.card = num_packages := by
      rw [hcard, hkn]
      simp
    have hdraw_eq : draw = Finset.range num_packages :=
      Finset.eq_of_subset_of_card_le hsub (by rw [hcard']; simp)
    have hall : (List.range file.length).filter
        (fun j => decide (j ∈ draw)) = List.range file.length :=
      List.filter_eq_self.mpr (fun j hj => by
        simp [hdraw_eq, hfile ▸ List.mem_range.mp hj])
    rw [hall, map_range_getD]

theorem sample_emits_k_lines_witness :
    ∃ out, sampleDataRun 0 ∅ (List.replicate num_packages "A") = .ok out ∧
      out.length = (0 : ℤ).toNat ∧
      (∃ idxs : List ℕ, List.Pairwise (· < ·) idxs ∧
        (∀ j ∈ idxs, j < (List.replicate num_packages "A").length ∧
          j ∈ (∅ : Finset ℕ)) ∧
        out = idxs.map (fun j => (List.replicate num_packages "A").getD j "")) ∧
      ((0 : ℤ) = 0 → out = []) ∧
      ((0 : ℤ) = (num_packages : ℤ) → out = List.replicate num_packages "A") :=
  sample_emits_k_lines 0 ∅ (List.replicate num_packages "A")
    (by decide) (by norm_num [num_packages]) (by simp)
    ⟨by decide, by simp⟩

/-- C3: running `emit_sample(k)` fails with `InvalidArgument` exactly when `k`
is negative or exceeds the configured record count, and succeeds for every
`0 ≤ k ≤ num_packages`. -/
theorem sample_invalid_argument_iff (k : ℤ) (draw : Finset ℕ)
    (file : List String) :
    (sampleDataRun k draw file = .error .invalidArgument ↔
      (k < 0 ∨ (num_packages : ℤ) < k)) ∧
    (0 ≤ k → k ≤ (num_packages : ℤ) →
      ∃ out, sampleDataRun k draw file = .ok out) := by
  constructor
  · unfold sampleDataRun
    by_cases h : 0 ≤ k ∧ k ≤ (num_packages : ℤ)
    · rw [if_pos h]
      simp only [reduceCtorEq, false_iff]
      omega
    · rw [if_neg h]
      simp only [true_iff]
      omega
  · intro h0 hn
    exact ⟨_, by rw [sampleDataRun, if_pos ⟨h0, hn⟩]⟩

theorem sample_invalid_argument_iff_witness :
    sampleDataRun (-1) ∅ ["A"] = .error .invalidArgument ∧
      ∃ out, sampleDataRun 0 ∅ ["A"] = .ok out :=
  ⟨(sample_invalid_argument_iff (-1) ∅ ["A"]).1.mpr (by norm_num),
   (sample_invalid_argument_iff 0 ∅ ["A"]).2 (by norm_num)
     (by norm_num [num_packages])⟩

/-- C9: on a data file of `m < num_packages` lines, `emit_sample(k)` raises no
error for any valid `k` and emits exactly the lines whose drawn index is below
`m`, in ascending index order — possibly fewer than `k` lines. -/
theorem sample_short_file_degrades (k : ℤ) (draw : Finset ℕ)
    (file : List String)
    (_hshort : file.length < num_packages)
    (h0 : 0 ≤ k) (hn : k ≤ (num_packages : ℤ))
    (hdraw : randomSampleSpec num_packages k draw) :
    ∃ out, sampleDataRun k draw file = .ok out ∧
      (∃ idxs : List ℕ, List.Pairwise (· < ·) idxs ∧
        (∀ j, j ∈ idxs ↔ (j ∈ draw ∧ j < file.length)) ∧
        out = idxs.map (fun j => file.getD j "")) ∧
      out.length = (draw.filter (fun j => j < file.length)).card ∧
      out.length ≤ k.toNat := by
  refine ⟨_, sampleDataRun_ok k draw file h0 hn, ?_, ?_, ?_⟩
  · refine ⟨_, sorted_filter_range _ _, ?_, rfl⟩
    intro j
    rw [List.mem_filter, List.mem_range]
    simp [and_comm]
  · rw [List.length_map, length_filter_range]
  · rw [List.length_map, length_filter_range, ← hdraw.1]
    exact Finset.card_filter_le draw _

theorem sample_short_file_degrades_witness :
    ∃ out, sampleDataRun 2 {0, 5} ["A", "B", "C"] = .ok out ∧
      (∃ idxs : List ℕ, List.Pairwise (· < ·) idxs ∧
        (∀ j, j ∈ idxs ↔ (j ∈ ({0, 5} : Finset ℕ) ∧ j < (["A", "B", "C"] : List String).length)) ∧
        out = idxs.map (fun j => (["A", "B", "C"] : List String).getD j "")) ∧
      out.length = (({0, 5} : Finset ℕ).filter (fun j => j < (["A", "B", "C"] : List String).length)).card ∧
      out.length ≤ (2 : ℤ).toNat :=
  sample_short_file_degrades 2 {0, 5} ["A", "B", "C"]
    (by norm_num [num_packages]) (by norm_num) (by norm_num [num_packages])
    ⟨by decide, by decide⟩

/-- C6: a template line triggers substitution exactly when it contains the
marker token `DATA` as a substring (containment, not equality: a line that
merely contains the marker triggers too), and when several lines contain the
marker the data block is substituted at each occurrence. -/
theorem marker_containment_each_occurrence :
    (∀ line : String, markerIn line = true ↔
      ∃ l r, line.toList = l ++ "DATA".toList ++ r) ∧
    (markerIn "xDATAy" = true ∧ "xDATAy" ≠ "DATA") ∧
    (∀ (l₁ l₂ : String) (dataFile : List String) (draws : ℕ → Finset ℕ),
      markerIn l₁ = true → markerIn l₂ = true →
      generate_page [l₁, l₂] dataFile none draws =
        .ok (dataFile ++ dataFile)) := by
  refine ⟨markerIn_iff, ⟨by decide, by decide⟩, ?_⟩
  intro l₁ l₂ dataFile draws h₁ h₂
  rw [generate_page, generatePageFrom_none]
  simp [h₁, h₂]

theorem marker_containment_each_occurrence_witness :
    generate_page ["aDATAb", "DATA"] ["L1", "L2"] none (fun _ => ∅) =
      .ok (["L1", "L2"] ++ ["L1", "L2"]) :=
  marker_containment_each_occurrence.2.2 "aDATAb" "DATA" ["L1", "L2"]
    (fun _ => ∅) (by decide) (by decide)

/-- C10: calling `emit_sample(k)` with an out-of-range `k` does not itself
raise: the call performs no file events and no validation for any `k`,
returning a generator object that merely holds `k`; the `InvalidArgument`
error surfaces — before any file is opened — only when the returned sequence
is first advanced. -/
theorem sample_call_lazy_validation (k : ℤ) :
    ((sample_data_call k).2 = [] ∧ (sample_data_call k).1.arg = k) ∧
    ((k < 0 ∨ (num_packages : ℤ) < k) →
      ∀ (draw : Finset ℕ) (dataFile : List String),
        ((sample_data_call k).1.consume draw dataFile).1 =
            .error .invalidArgument ∧
          ((sample_data_call k).1.consume draw dataFile).2 = []) := by
  refine ⟨⟨rfl, rfl⟩, ?_⟩
  intro hk draw dataFile
  simp only [sample_data_call, SampleGen.consume]
  rw [if_neg (by omega)]
  exact ⟨rfl, rfl⟩

theorem sample_call_lazy_validation_witness :
    ((sample_data_call (-1)).1.consume ∅ ["A"]).1 =
      .error .invalidArgument :=
  ((sample_call_lazy_validation (-1)).2 (by norm_num) ∅ ["A"]).1

/-! ## Event bookkeeping for the failure-injection model -/

lemma renderLoop_nil (d : List String) (k : Option ℤ) (draws : ℕ → Finset ℕ)
    (occ : ℕ) (st : WSt) : renderLoop d k draws [] occ st = (st, none) := rfl

lemma renderLoop_cons (d : List String) (k : Option ℤ) (draws : ℕ → Finset ℕ)
    (line : String) (rest : List String) (occ : ℕ) (st : WSt) :
    renderLoop d k draws (line :: rest) occ st =
      if markerIn line then
        match markerWrite st d k (draws occ) with
        | (st1, some e) => (st1, some e)
        | (st1, none) => renderLoop d k draws rest (occ + 1) st1
      else
        match wWrite st line with
        | (st1, true) => renderLoop d k draws rest (occ + 1) st1
        | (st1, false) => (st1, some RunErr.writeFailure) := rfl

lemma wWrite_evs (st : WSt) (line : String) :
    (wWrite st line).1.evs = st.evs := by
  rcases st with ⟨w, b, e⟩
  cases b with
  | none => rfl
  | some n =>
    cases n with
    | zero => rfl
    | succ m => rfl

lemma wWriteLines_evs : ∀ (ls : List String) (st : WSt),
    (wWriteLines st ls).1.evs = st.evs
  | [], st => rfl
  | l :: ls, st => by
    have he := wWrite_evs st l
    rw [wWriteLines]
    rcases hw : wWrite st l with ⟨st1, ok⟩
    rw [hw] at he
    cases ok
    · exact he
    · show (wWriteLines st1 ls).1.evs = st.evs
      rw [wWriteLines_evs ls st1]
      exact he

lemma wWriteData_spec (st : WSt) (d : List String) :
    ((wWriteData st d).2 = none ∧
      (wWriteData st d).1.evs = st.evs ++ [Ev.openData, Ev.closeData]) ∨
    ((wWriteData st d).2 = some RunErr.writeFailure ∧
      (wWriteData st d).1.evs = st.evs ++ [Ev.openData]) := by
  rw [wWriteData]
  have he := wWriteLines_evs (get_data d)
    { st with evs := st.evs ++ [Ev.openData] }
  rcases hw : wWriteLines { st with evs := st.evs ++ [Ev.openData] }
      (get_data d) with ⟨st1, ok⟩
  rw [hw] at he
  cases ok
  · exact Or.inr ⟨rfl, he⟩
  · refine Or.inl ⟨rfl, ?_⟩
    show st1.evs ++ [Ev.closeData] = _
    rw [he]
    show (st.evs ++ [Ev.openData]) ++ [Ev.closeData] = _
    rw [List.append_assoc]
    rfl

lemma wWriteSample_spec (st : WSt) (k : ℤ) (draw : Finset ℕ)
    (d : List String) :
    ((wWriteSample st k draw d).2 = none ∧
      (wWriteSample st k draw d).1.evs =
        st.evs ++ [Ev.openData, Ev.closeData]) ∨
    ((wWriteSample st k draw d).2 = some RunErr.writeFailure ∧
      (wWriteSample st k draw d).1.evs = st.evs ++ [Ev.openData]) ∨
    ((wWriteSample st k draw d).2 = some RunErr.invalidArgument ∧
      (wWriteSample st k draw d).1.evs = st.evs) := by
  rw [wWriteSample]
  by_cases hv : 0 ≤ k ∧ k ≤ (num_packages : ℤ)
  · rw [if_pos hv]
    have he := wWriteLines_evs (emitFrom draw 0 d)
      { st with evs := st.evs ++ [Ev.openData] }
    rcases hw : wWriteLines { st with evs := st.evs ++ [Ev.openData] }
        (emitFrom draw 0 d) with ⟨st1, ok⟩
    rw [hw] at he
    cases ok
    · exact Or.inr (Or.inl ⟨rfl, he⟩)
    · refine Or.inl ⟨rfl, ?_⟩
      show st1.evs ++ [Ev.closeData] = _
      rw [he]
      show (st.evs ++ [Ev.openData]) ++ [Ev.closeData] = _
      rw [List.append_assoc]
      rfl
  · rw [if_neg hv]
    exact Or.inr (Or.inr ⟨rfl, rfl⟩)

/-- The marker body opens the data file and, except on a failed or rejected
run, closes it; it never touches the template or output file. -/
lemma markerWrite_spec (st : WSt) (d : List String) (k : Option ℤ)
    (draw : Finset ℕ) :
    ((markerWrite st d k draw).2 = none ∧
      (markerWrite st d k draw).1.evs =
        st.evs ++ [Ev.openData, Ev.closeData]) ∨
    ((markerWrite st d k draw).2 = some RunErr.writeFailure ∧
      (markerWrite st d k draw).1.evs = st.evs ++ [Ev.openData]) ∨
    ((markerWrite st d k draw).2 = some RunErr.invalidArgument ∧
      (markerWrite st d k draw).1.evs = st.evs) := by
  cases k with
  | none =>
    rcases wWriteData_spec st d with h | h
    · exact Or.inl h
    · exact Or.inr (Or.inl h)
  | some kv => exact wWriteSample_spec st kv draw d


/-- Every event the template loop appends concerns the data file, and a
successful pass closes the data file as many times as it opens it. -/
lemma renderLoop_evs (d : List String) (k : Option ℤ)
    (draws : ℕ → Finset ℕ) : ∀ (t : List String) (occ : ℕ) (st : WSt),
    ∃ fresh : List Ev,
      (renderLoop d k draws t occ st).1.evs = st.evs ++ fresh ∧
      (∀ e ∈ fresh, e = Ev.openData ∨ e = Ev.closeData) ∧
      ((renderLoop d k draws t occ st).2 = none →
        fresh.count Ev.openData = fresh.count Ev.closeData)
  | [], occ, st => by
    rw [renderLoop_nil]
    exact ⟨[], by simp, by simp, fun _ => rfl⟩
  | line :: rest, occ, st => by
    rw [renderLoop_cons]
    by_cases hm : markerIn line
    · rw [if_pos hm]
      have hsp := markerWrite_spec st d k (draws occ)
      rcases hwd : markerWrite st d k (draws occ) with ⟨st1, e⟩
      rw [hwd] at hsp
      rcases hsp with ⟨he, hevs⟩ | ⟨he, hevs⟩ | ⟨he, hevs⟩
      · cases he
        obtain ⟨fresh, hf1, hf2, hf3⟩ :=
          renderLoop_evs d k draws rest (occ + 1) st1
        refine ⟨[Ev.openData, Ev.closeData] ++ fresh, ?_, ?_, ?_⟩
        · show (renderLoop d k draws rest (occ + 1) st1).1.evs = _
          rw [hf1]
          rw [show st1.evs = st.evs ++ [Ev.openData, Ev.closeData] from hevs]
          rw [List.append_assoc]
        · intro ev hev
          rcases List.mem_append.mp hev with h | h
          · rcases List.mem_cons.mp h with h | h
            · exact Or.inl h
            · rcases List.mem_cons.mp h with h | h
              · exact Or.inr h
              · exact absurd h (List.not_mem_nil ev)
          · exact hf2 ev h
        · intro hnone
          have hc := hf3 hnone
          rw [List.count_append, List.count_append, hc]
          simp +decide [List.count_cons]
      · cases he
        refine ⟨[Ev.openData], hevs, by simp, ?_⟩
        intro hnone
        exact absurd hnone (by simp)
      · cases he
        refine ⟨[], by simpa using hevs, by simp, ?_⟩
        intro hnone
        exact absurd hnone (by simp)
    · rw [if_neg hm]
      have he := wWrite_evs st line
      rcases hw : wWrite st line with ⟨st1, ok⟩
      rw [hw] at he
      cases ok
      · refine ⟨[], by simpa using he, by simp, ?_⟩
        intro hnone
        exact absurd hnone (by simp)
      · obtain ⟨fresh, hf1, hf2, hf3⟩ :=
          renderLoop_evs d k draws rest (occ + 1) st1
        refine ⟨fresh, ?_, hf2, hf3⟩
        show (renderLoop d k draws rest (occ + 1) st1).1.evs = _
        rw [hf1, he]

/-- Unfolding of `render` into the loop run from the initial state. -/
lemma render_eq (t d : List String) (k : Option ℤ) (draws : ℕ → Finset ℕ)
    (budget : Option ℕ) :
    render t d k draws budget =
      ({ (renderLoop d k draws t 0
            { written := [], budget := budget,
              evs := [Ev.openTemplate, Ev.openOutput] }).1 with
         evs := (renderLoop d k draws t 0
            { written := [], budget := budget,
              evs := [Ev.openTemplate, Ev.openOutput] }).1.evs ++
              [Ev.closeOutput, Ev.closeTemplate] },
       (renderLoop d k draws t 0
          { written := [], budget := budget,
            evs := [Ev.openTemplate, Ev.openOutput] }).2) := by
  rw [render]

/-- C7 (counterexample to the claim as stated): one render call in which an
I/O error interrupts the write of the data block: the data file is opened but
never closed during the call — the claim that all three files are closed on
every exit path fails. -/
theorem render_data_close_counterexample :
    (render ["DATA"] ["A", "B"] none (fun _ => ∅) (some 1)).2 =
        some RunErr.writeFailure ∧
      (render ["DATA"] ["A", "B"] none (fun _ => ∅) (some 1)).1.evs.count
          Ev.openData = 1 ∧
      (render ["DATA"] ["A", "B"] none (fun _ => ∅) (some 1)).1.evs.count
          Ev.closeData = 0 := by
  decide

/-- C7 (amended): during any `render()` call, the template and output files
are closed by the end of the call on every exit path — they are held in
`with` blocks (scoped acquisition) — but the data file is closed only when
its line iteration is driven to exhaustion: on a run interrupted by an I/O
error the call can terminate with the data file still open, so only a run
that terminates without error is guaranteed to balance every data-file open
with a close. -/
theorem render_scoped_closes (template dataFile : List String) (k : Option ℤ)
    (draws : ℕ → Finset ℕ) (budget : Option ℕ) :
    (render template dataFile k draws budget).1.evs.count Ev.closeTemplate =
        1 ∧
      (render template dataFile k draws budget).1.evs.count Ev.closeOutput =
        1 ∧
      ((render template dataFile k draws budget).2 = none →
        (render template dataFile k draws budget).1.evs.count Ev.closeData =
          (render template dataFile k draws budget).1.evs.count
            Ev.openData) := by
  obtain ⟨fresh, hf1, hf2, hf3⟩ := renderLoop_evs dataFile k draws template 0
    { written := [], budget := budget,
      evs := [Ev.openTemplate, Ev.openOutput] }
  have hct : fresh.count Ev.closeTemplate = 0 := by
    rw [List.count_eq_zero]
    intro hmem
    rcases hf2 _ hmem with h | h <;> cases h
  have hco : fresh.count Ev.closeOutput = 0 := by
    rw [List.count_eq_zero]
    intro hmem
    rcases hf2 _ hmem with h | h <;> cases h
  rw [render_eq]
  dsimp only
  rw [hf1]
  simp only [List.count_append]
  refine ⟨?_, ?_, ?_⟩
  · have e1 : List.count Ev.closeTemplate
        [Ev.openTemplate, Ev.openOutput] = 0 := by decide
    have e2 : List.count Ev.closeTemplate
        [Ev.closeOutput, Ev.closeTemplate] = 1 := by decide
    omega
  · have e1 : List.count Ev.closeOutput
        [Ev.openTemplate, Ev.openOutput] = 0 := by decide
    have e2 : List.count Ev.closeOutput
        [Ev.closeOutput, Ev.closeTemplate] = 1 := by decide
    omega
  · intro hnone
    have hc := hf3 hnone
    have e1 : List.count Ev.closeData
        [Ev.openTemplate, Ev.openOutput] = 0 := by decide
    have e2 : List.count Ev.closeData
        [Ev.closeOutput, Ev.closeTemplate] = 0 := by decide
    have e3 : List.count Ev.openData
        [Ev.openTemplate, Ev.openOutput] = 0 := by decide
    have e4 : List.count Ev.openData
        [Ev.closeOutput, Ev.closeTemplate] = 0 := by decide
    omega

theorem render_scoped_closes_witness :
    (render ["DATA"] ["A"] none (fun _ => ∅) none).1.evs.count Ev.closeData =
      (render ["DATA"] ["A"] none (fun _ => ∅) none).1.evs.count
        Ev.openData :=
  (render_scoped_closes ["DATA"] ["A"] none (fun _ => ∅) none).2.2 (by decide)

/-! ## Written-output bookkeeping for the failure-injection model -/

lemma wWrite_none (w : List String) (e : List Ev) (l : String) :
    wWrite ⟨w, none, e⟩ l = (⟨w ++ [l], none, e⟩, true) := rfl

lemma wWrite_zero (w : List String) (e : List Ev) (l : String) :
    wWrite ⟨w, some 0, e⟩ l = (⟨w, some 0, e⟩, false) := rfl

lemma wWrite_succ (w : List String) (e : List Ev) (l : String) (b : ℕ) :
    wWrite ⟨w, some (b + 1), e⟩ l = (⟨w ++ [l], some b, e⟩, true) := rfl

/-- With no injected failure, `writelines` writes every line. -/
lemma wWriteLines_none : ∀ (ls w : List String) (e : List Ev),
    wWriteLines ⟨w, none, e⟩ ls = (⟨w ++ ls, none, e⟩, true)
  | [], w, e => by
    rw [wWriteLines, List.append_nil]
  | l :: ls, w, e => by
    rw [wWriteLines, wWrite_none]
    show wWriteLines ⟨w ++ [l], none, e⟩ ls = _
    rw [wWriteLines_none ls (w ++ [l]) e, List.append_assoc]
    rfl

/-- With a budget of `f` successful writes, `writelines` either writes all
lines (when they fit) or exactly the first `f` of them and fails. -/
lemma wWriteLines_budget : ∀ (ls w : List String) (e : List Ev) (f : ℕ),
    (ls.length ≤ f →
      wWriteLines ⟨w, some f, e⟩ ls =
        (⟨w ++ ls, some (f - ls.length), e⟩, true)) ∧
    (f < ls.length →
      wWriteLines ⟨w, some f, e⟩ ls = (⟨w ++ ls.take f, some 0, e⟩, false))
  | [], w, e, f => by
    refine ⟨fun h => ?_, fun h => absurd h (Nat.not_lt_zero f)⟩
    rw [wWriteLines, List.append_nil]
    simp
  | l :: ls, w, e, f => by
    cases f with
    | zero =>
      refine ⟨fun h => absurd h (by simp), fun h => ?_⟩
      rw [wWriteLines, wWrite_zero]
      show (({ written := w, budget := some 0, evs := e } : WSt), false) = _
      rw [List.take_zero, List.append_nil]
    | succ b =>
      constructor
      · intro h
        rw [wWriteLines, wWrite_succ]
        show wWriteLines ⟨w ++ [l], some b, e⟩ ls = _
        rw [(wWriteLines_budget ls (w ++ [l]) e b).1 (by
          simp only [List.length_cons] at h
          omega)]
        rw [List.append_assoc, List.length_cons, Nat.succ_sub_succ]
        rfl
      · intro h
        rw [wWriteLines, wWrite_succ]
        show wWriteLines ⟨w ++ [l], some b, e⟩ ls = _
        rw [(wWriteLines_budget ls (w ++ [l]) e b).2 (by
          simp only [List.length_cons] at h
          omega)]
        rw [List.take_succ_cons, List.append_assoc]
        rfl

/-- Complete description of `writelines(get_data())`: what it writes, what is
left of the budget, and which data-file events occur. -/
lemma wWriteData_run (w : List String) (e : List Ev) (d : List String) :
    (wWriteData ⟨w, none, e⟩ d =
      (⟨w ++ d, none, (e ++ [Ev.openData]) ++ [Ev.closeData]⟩, none)) ∧
    (∀ f, d.length ≤ f →
      wWriteData ⟨w, some f, e⟩ d =
        (⟨w ++ d, some (f - d.length),
          (e ++ [Ev.openData]) ++ [Ev.closeData]⟩, none)) ∧
    (∀ f, f < d.length →
      wWriteData ⟨w, some f, e⟩ d =
        (⟨w ++ d.take f, some 0, e ++ [Ev.openData]⟩,
         some RunErr.writeFailure)) := by
  refine ⟨?_, fun f hf => ?_, fun f hf => ?_⟩
  · dsimp only [wWriteData, get_data]
    rw [wWriteLines_none d w (e ++ [Ev.openData])]
  · dsimp only [wWriteData, get_data]
    rw [(wWriteLines_budget d w (e ++ [Ev.openData]) f).1 hf]
  · dsimp only [wWriteData, get_data]
    rw [(wWriteLines_budget d w (e ++ [Ev.openData]) f).2 hf]

/-- Complete description of `writelines(sample_data(k))` for a valid `k`. -/
lemma wWriteSample_run (w : List String) (e : List Ev) (k : ℤ)
    (draw : Finset ℕ) (d : List String)
    (hv : 0 ≤ k ∧ k ≤ (num_packages : ℤ)) :
    (wWriteSample ⟨w, none, e⟩ k draw d =
      (⟨w ++ emitFrom draw 0 d, none,
        (e ++ [Ev.openData]) ++ [Ev.closeData]⟩, none)) ∧
    (∀ f, (emitFrom draw 0 d).length ≤ f →
      wWriteSample ⟨w, some f, e⟩ k draw d =
        (⟨w ++ emitFrom draw 0 d, some (f - (emitFrom draw 0 d).length),
          (e ++ [Ev.openData]) ++ [Ev.closeData]⟩, none)) ∧
    (∀ f, f < (emitFrom draw 0 d).length →
      wWriteSample ⟨w, some f, e⟩ k draw d =
        (⟨w ++ (emitFrom draw 0 d).take f, some 0, e ++ [Ev.openData]⟩,
         some RunErr.writeFailure)) := by
  refine ⟨?_, fun f hf => ?_, fun f hf => ?_⟩
  · rw [wWriteSample, if_pos hv]
    dsimp only
    rw [wWriteLines_none (emitFrom draw 0 d) w (e ++ [Ev.openData])]
  · rw [wWriteSample, if_pos hv]
    dsimp only
    rw [(wWriteLines_budget (emitFrom draw 0 d) w (e ++ [Ev.openData]) f).1 hf]
  · rw [wWriteSample, if_pos hv]
    dsimp only
    rw [(wWriteLines_budget (emitFrom draw 0 d) w (e ++ [Ev.openData]) f).2 hf]

/-- An invalid `k` makes the sample writer stop before any file event. -/
lemma wWriteSample_invalid (st : WSt) (k : ℤ) (draw : Finset ℕ)
    (d : List String) (hv : ¬(0 ≤ k ∧ k ≤ (num_packages : ℤ))) :
    wWriteSample st k draw d = (st, some RunErr.invalidArgument) := by
  rw [wWriteSample, if_neg hv]

/-- The marker body, described through the block the corresponding generator
emits (the whole data file for `k = None`, the sampled lines otherwise). -/
lemma markerWrite_run (d : List String) (k : Option ℤ) (draw : Finset ℕ)
    (block : List String)
    (hb : (match k with
           | none => (.ok (get_data d) : Except PGErr (List String))
           | some kv => sampleDataRun kv draw d) = .ok block) :
    ∀ (w : List String) (e : List Ev),
    (markerWrite ⟨w, none, e⟩ d k draw =
      (⟨w ++ block, none, (e ++ [Ev.openData]) ++ [Ev.closeData]⟩, none)) ∧
    (∀ f, block.length ≤ f →
      markerWrite ⟨w, some f, e⟩ d k draw =
        (⟨w ++ block, some (f - block.length),
          (e ++ [Ev.openData]) ++ [Ev.closeData]⟩, none)) ∧
    (∀ f, f < block.length →
      markerWrite ⟨w, some f, e⟩ d k draw =
        (⟨w ++ block.take f, some 0, e ++ [Ev.openData]⟩,
         some RunErr.writeFailure)) := by
  intro w e
  cases k with
  | none =>
    have hd : block = d := by
      rw [get_data] at hb
      exact (Except.ok.injEq _ _ ▸ hb.symm :)
    subst hd
    exact wWriteData_run w e block
  | some kv =>
    have hb' : sampleDataRun kv draw d = .ok block := hb
    by_cases hv : 0 ≤ kv ∧ kv ≤ (num_packages : ℤ)
    · have hbl : block = emitFrom draw 0 d := by
        rw [sampleDataRun, if_pos hv] at hb'
        cases hb'
        rfl
      subst hbl
      exact wWriteSample_run w e kv draw d hv
    · rw [sampleDataRun, if_neg hv] at hb'
      cases hb' 

lemma generatePageFrom_nil (dataFile : List String) (k : Option ℤ)
    (draws : ℕ → Finset ℕ) (occ : ℕ) :
    generatePageFrom dataFile k draws [] occ = .ok [] := rfl

lemma generatePageFrom_cons (dataFile : List String) (k : Option ℤ)
    (draws : ℕ → Finset ℕ) (line : String) (rest : List String) (occ : ℕ) :
    generatePageFrom dataFile k draws (line :: rest) occ =
      if markerIn line then
        match k with
        | none =>
          match generatePageFrom dataFile none draws rest (occ + 1) with
          | .ok tail => .ok (get_data dataFile ++ tail)
          | .error e => .error e
        | some kv =>
          match sampleDataRun kv (draws occ) dataFile with
          | .error e => .error e
          | .ok block =>
            match generatePageFrom dataFile (some kv) draws rest (occ + 1)
                with
            | .ok tail => .ok (block ++ tail)
            | .error e => .error e
      else
        match generatePageFrom dataFile k draws rest (occ + 1) with
        | .ok tail => .ok (line :: tail)
        | .error e => .error e := rfl

lemma markerWrite_none_eq (st : WSt) (d : List String) (draw : Finset ℕ) :
    markerWrite st d none draw = wWriteData st d := rfl

lemma markerWrite_some_eq (st : WSt) (d : List String) (kv : ℤ)
    (draw : Finset ℕ) :
    markerWrite st d (some kv) draw = wWriteSample st kv draw d := rfl

/-- Splitting a successful pure run at a marker line: the generator ran to a
block, the rest of the template ran to a tail, and the output is their
concatenation. -/
lemma generatePageFrom_marker_ok (d : List String) (k : Option ℤ)
    (draws : ℕ → Finset ℕ) (line : String) (rest : List String) (occ : ℕ)
    (out : List String) (hm : markerIn line = true)
    (h : generatePageFrom d k draws (line :: rest) occ = .ok out) :
    ∃ block tail,
      (match k with
        | none => (.ok (get_data d) : Except PGErr (List String))
        | some kv => sampleDataRun kv (draws occ) d) = .ok block ∧
      generatePageFrom d k draws rest (occ + 1) = .ok tail ∧
      out = block ++ tail := by
  rw [generatePageFrom_cons, if_pos hm] at h
  cases k with
  | none =>
    cases hrec : generatePageFrom d none draws rest (occ + 1) with
    | error err =>
      rw [hrec] at h
      exact Except.noConfusion h
    | ok tail =>
      rw [hrec] at h
      have h' : (.ok (get_data d ++ tail) : Except PGErr (List String)) =
          .ok out := h
      injection h' with h2
      exact ⟨get_data d, tail, rfl, rfl, h2.symm⟩
  | some kv =>
    have h' : (match sampleDataRun kv (draws occ) d with
        | Except.error e => (Except.error e : Except PGErr (List String))
        | Except.ok block =>
          match generatePageFrom d (some kv) draws rest (occ + 1) with
          | Except.ok tail => Except.ok (block ++ tail)
          | Except.error e => Except.error e) = Except.ok out := h
    cases hs : sampleDataRun kv (draws occ) d with
    | error err =>
      rw [hs] at h'
      exact Except.noConfusion h'
    | ok block =>
      rw [hs] at h'
      cases hrec : generatePageFrom d (some kv) draws rest (occ + 1) with
      | error err =>
        rw [hrec] at h'
        exact Except.noConfusion h'
      | ok tail =>
        rw [hrec] at h'
        have h2 : (.ok (block ++ tail) : Except PGErr (List String)) =
            .ok out := h'
        injection h2 with h3
        exact ⟨block, tail, hs, rfl, h3.symm⟩

/-- Splitting a successful pure run at a non-marker line. -/
lemma generatePageFrom_line_ok (d : List String) (k : Option ℤ)
    (draws : ℕ → Finset ℕ) (line : String) (rest : List String) (occ : ℕ)
    (out : List String) (hm : ¬markerIn line = true)
    (h : generatePageFrom d k draws (line :: rest) occ = .ok out) :
    ∃ tail, generatePageFrom d k draws rest (occ + 1) = .ok tail ∧
      out = line :: tail := by
  rw [generatePageFrom_cons, if_neg hm] at h
  cases hrec : generatePageFrom d k draws rest (occ + 1) with
  | error err =>
    rw [hrec] at h
    exact Except.noConfusion h
  | ok tail =>
    rw [hrec] at h
    have h' : (.ok (line :: tail) : Except PGErr (List String)) = .ok out := h
    injection h' with h2
    exact ⟨tail, rfl, h2.symm⟩

/-- When the pure run fails (it can only fail with `InvalidArgument`), the
traced run with no injected write failure stops with `InvalidArgument`. -/
lemma renderLoop_err (d : List String) (draws : ℕ → Finset ℕ) :
    ∀ (k : Option ℤ) (t : List String) (occ : ℕ) (err : PGErr)
      (w : List String) (e : List Ev),
      generatePageFrom d k draws t occ = .error err →
      (renderLoop d k draws t occ ⟨w, none, e⟩).2 =
        some RunErr.invalidArgument
  | k, [], occ, err, w, e, h => by
    rw [generatePageFrom_nil] at h
    exact Except.noConfusion h
  | k, line :: rest, occ, err, w, e, h => by
    rw [renderLoop_cons]
    by_cases hm : markerIn line
    · rw [if_pos hm]
      rw [generatePageFrom_cons, if_pos hm] at h
      cases k with
      | none =>
        cases hrec : generatePageFrom d none draws rest (occ + 1) with
        | ok tail =>
          rw [hrec] at h
          exact Except.noConfusion h
        | error err2 =>
          have hmw := (markerWrite_run d none (draws occ) (get_data d) rfl
            w e).1
          rw [hmw]
          exact renderLoop_err d draws none rest (occ + 1) err2 _ _ hrec
      | some kv =>
        have h' : (match sampleDataRun kv (draws occ) d with
            | Except.error e2 => (Except.error e2 : Except PGErr (List String))
            | Except.ok block =>
              match generatePageFrom d (some kv) draws rest (occ + 1) with
              | Except.ok tail => Except.ok (block ++ tail)
              | Except.error e2 => Except.error e2) = Except.error err := h
        cases hs : sampleDataRun kv (draws occ) d with
        | error err2 =>
          have hv : ¬(0 ≤ kv ∧ kv ≤ (num_packages : ℤ)) := by
            intro hv
            rw [sampleDataRun, if_pos hv] at hs
            exact Except.noConfusion hs
          rw [markerWrite_some_eq,
            wWriteSample_invalid ⟨w, none, e⟩ kv (draws occ) d hv]
        | ok block =>
          rw [hs] at h'
          cases hrec : generatePageFrom d (some kv) draws rest (occ + 1) with
          | ok tail =>
            rw [hrec] at h'
            exact Except.noConfusion h'
          | error err2 =>
            have hmw := (markerWrite_run d (some kv) (draws occ) block hs
              w e).1
            rw [hmw]
            exact renderLoop_err d draws (some kv) rest (occ + 1) err2 _ _
              hrec
    · rw [if_neg hm]
      rw [generatePageFrom_cons, if_neg hm] at h
      cases hrec : generatePageFrom d k draws rest (occ + 1) with
      | ok tail =>
        rw [hrec] at h
        exact Except.noConfusion h
      | error err2 =>
        rw [wWrite_none]
        exact renderLoop_err d draws k rest (occ + 1) err2 _ _ hrec

/-- Simulation between the pure run and the traced run: when the pure run
succeeds with output `out`, the unbudgeted traced run writes `out` in full; a
budget of `f ≥ out.length` writes `out` and leaves `f - out.length` writes of
budget; a budget of `f < out.length` writes exactly the first `f` lines of
`out` and stops with a write failure. -/
lemma renderLoop_sim (d : List String) (draws : ℕ → Finset ℕ) :
    ∀ (k : Option ℤ) (t : List String) (occ : ℕ) (out w : List String)
      (e₁ e₂ : List Ev) (f : ℕ),
      generatePageFrom d k draws t occ = .ok out →
      ((renderLoop d k draws t occ ⟨w, none, e₁⟩).2 = none ∧
        (renderLoop d k draws t occ ⟨w, none, e₁⟩).1.written = w ++ out) ∧
      (out.length ≤ f →
        (renderLoop d k draws t occ ⟨w, some f, e₂⟩).2 = none ∧
        (renderLoop d k draws t occ ⟨w, some f, e₂⟩).1.written = w ++ out ∧
        (renderLoop d k draws t occ ⟨w, some f, e₂⟩).1.budget =
          some (f - out.length)) ∧
      (f < out.length →
        (renderLoop d k draws t occ ⟨w, some f, e₂⟩).2 =
          some RunErr.writeFailure ∧
        (renderLoop d k draws t occ ⟨w, some f, e₂⟩).1.written =
          w ++ out.take f)
  | k, [], occ, out, w, e₁, e₂, f, h => by
    rw [generatePageFrom_nil] at h
    injection h with h2
    subst h2
    rw [renderLoop_nil, renderLoop_nil]
    exact ⟨⟨rfl, by simp⟩, fun _ => ⟨rfl, by simp, by simp⟩,
      fun hf => absurd hf (by simp)⟩
  | k, line :: rest, occ, out, w, e₁, e₂, f, h => by
    rw [renderLoop_cons d k draws line rest occ ⟨w, none, e₁⟩,
      renderLoop_cons d k draws line rest occ ⟨w, some f, e₂⟩]
    by_cases hm : markerIn line
    · rw [if_pos hm, if_pos hm]
      obtain ⟨block, tail, hblock, hrec, hout⟩ :=
        generatePageFrom_marker_ok d k draws line rest occ out hm h
      subst hout
      have hmw := markerWrite_run d k (draws occ) block hblock
      refine ⟨?_, ?_, ?_⟩
      · rw [(hmw w e₁).1]
        have IH1 := (renderLoop_sim d draws k rest (occ + 1) tail (w ++ block)
          ((e₁ ++ [Ev.openData]) ++ [Ev.closeData]) e₂ 0 hrec).1
        exact ⟨IH1.1, IH1.2.trans (List.append_assoc w block tail)⟩
      · intro hf
        have hlen : block.length + tail.length = (block ++ tail).length :=
          (List.length_append block tail).symm
        have hbf : block.length ≤ f := by omega
        rw [(hmw w e₂).2.1 f hbf]
        have IH2 := (renderLoop_sim d draws k rest (occ + 1) tail (w ++ block)
          e₁ ((e₂ ++ [Ev.openData]) ++ [Ev.closeData]) (f - block.length)
          hrec).2.1 (by omega)
        refine ⟨IH2.1, IH2.2.1.trans (List.append_assoc w block tail), ?_⟩
        refine IH2.2.2.trans (congrArg some ?_)
        omega
      · intro hf
        have hlen : block.length + tail.length = (block ++ tail).length :=
          (List.length_append block tail).symm
        by_cases hbf : f < block.length
        · rw [(hmw w e₂).2.2 f hbf]
          refine ⟨rfl, ?_⟩
          show w ++ block.take f = w ++ (block ++ tail).take f
          rw [List.take_append_eq_append_take,
            show f - block.length = 0 from by omega, List.take_zero,
            List.append_nil]
        · have hbf2 : block.length ≤ f := Nat.le_of_not_lt hbf
          rw [(hmw w e₂).2.1 f hbf2]
          have IH3 := (renderLoop_sim d draws k rest (occ + 1) tail
            (w ++ block) e₁ ((e₂ ++ [Ev.openData]) ++ [Ev.closeData])
            (f - block.length) hrec).2.2 (by omega)
          refine ⟨IH3.1, ?_⟩
          show _ = w ++ (block ++ tail).take f
          rw [List.take_append_eq_append_take, List.take_of_length_le hbf2,
            ← List.append_assoc]
          exact IH3.2
    · rw [if_neg hm, if_neg hm]
      obtain ⟨tail, hrec, hout⟩ :=
        generatePageFrom_line_ok d k draws line rest occ out hm h
      subst hout
      refine ⟨?_, ?_, ?_⟩
      · rw [wWrite_none]
        have IH1 := (renderLoop_sim d draws k rest (occ + 1) tail
          (w ++ [line]) e₁ e₂ 0 hrec).1
        refine ⟨IH1.1, IH1.2.trans ?_⟩
        rw [List.append_assoc, List.singleton_append]
      · intro hf
        cases f with
        | zero => exact absurd hf (by simp)
        | succ b =>
          rw [wWrite_succ]
          have IH2 := (renderLoop_sim d draws k rest (occ + 1) tail
            (w ++ [line]) e₁ e₂ b hrec).2.1 (by
              simp only [List.length_cons] at hf
              omega)
          refine ⟨IH2.1, IH2.2.1.trans ?_, ?_⟩
          · rw [List.append_assoc, List.singleton_append]
          · refine IH2.2.2.trans (congrArg some ?_)
            simp only [List.length_cons]
            omega
      · intro hf
        cases f with
        | zero =>
          rw [wWrite_zero]
          refine ⟨rfl, ?_⟩
          show w = w ++ (line :: tail).take 0
          rw [List.take_zero, List.append_nil]
        | succ b =>
          rw [wWrite_succ]
          have IH3 := (renderLoop_sim d draws k rest (occ + 1) tail
            (w ++ [line]) e₁ e₂ b hrec).2.2 (by
              simp only [List.length_cons] at hf
              omega)
          refine ⟨IH3.1, ?_⟩
          show _ = w ++ (line :: tail).take (b + 1)
          rw [List.take_succ_cons]
          refine IH3.2.trans ?_
          rw [List.append_assoc, List.singleton_append]

/-- C8: every error during `render()` propagates to the caller, with no local
recovery, retry, or partial-output cleanup; an injected I/O error after `f`
successful writes surfaces as the call's result, and the destination file is
left containing exactly the prefix (the first `f` lines) of the full output
written before the error — truncated, with no rollback. -/
theorem render_error_leaves_prefix (template dataFile : List String)
    (k : Option ℤ) (draws : ℕ → Finset ℕ) (f : ℕ)
    (hok : (render template dataFile k draws none).2 = none)
    (hf : f < (render template dataFile k draws none).1.written.length) :
    (render template dataFile k draws (some f)).2 =
        some RunErr.writeFailure ∧
      (render template dataFile k draws (some f)).1.written =
        (render template dataFile k draws none).1.written.take f := by
  cases hgen : generatePageFrom dataFile k draws template 0 with
  | error err =>
    have herr := renderLoop_err dataFile draws k template 0 err []
      [Ev.openTemplate, Ev.openOutput] hgen
    have h2 : (render template dataFile k draws none).2 =
        (renderLoop dataFile k draws template 0
          ⟨[], none, [Ev.openTemplate, Ev.openOutput]⟩).2 := by
      rw [render_eq]
    rw [h2, herr] at hok
    exact Option.noConfusion hok
  | ok out =>
    have hsim := renderLoop_sim dataFile draws k template 0 out []
      [Ev.openTemplate, Ev.openOutput] [Ev.openTemplate, Ev.openOutput] f
      hgen
    have hwnone : (render template dataFile k draws none).1.written = out := by
      rw [render_eq]
      exact hsim.1.2.trans (List.nil_append out)
    rw [hwnone] at hf
    have h3 := hsim.2.2 hf
    constructor
    · rw [render_eq]
      exact h3.1
    · rw [hwnone, render_eq]
      exact h3.2.trans (List.nil_append (out.take f))

theorem render_error_leaves_prefix_witness :
    (render ["X", "DATA"] ["A", "B"] none (fun _ => ∅) (some 1)).2 =
        some RunErr.writeFailure ∧
      (render ["X", "DATA"] ["A", "B"] none (fun _ => ∅) (some 1)).1.written =
        (render ["X", "DATA"] ["A", "B"] none (fun _ => ∅)
            none).1.written.take 1 :=
  render_error_leaves_prefix ["X", "DATA"] ["A", "B"] none (fun _ => ∅) 1
    (by decide) (by decide)

example : markerIn "x DATA y" = true := by decide
example : markerIn "DAT A" = false := by decide
example : emitFrom {0, 2} 0 ["A", "B", "C"] = ["A", "C"] := by decide
example :
    generate_page ["X", "has DATA here", "Y"] ["A", "B"] none (fun _ => ∅) =
      .ok ["X", "A", "B", "Y"] := by rfl
